import Mathlib

/-!
Verification development for the graph_os CLI session-coordination core
(`src/apps/graph_os_cli/src/session.rs` and the chat collaborator's save path
in `src/apps/graph_os_cli/src/chat.rs`).

Shallow embedding conventions:
* `Uuid` and `DateTime<Utc>` are modelled as `Nat` (opaque identifiers and
  abstract timestamps); `Uuid::new_v4()` is modelled as an oracle parameter,
  assumed fresh where a claim needs uniqueness.
* `serde_json` values are modelled by the `Json` tree type; the derived
  `Serialize`/`Deserialize` instances of `Session`, `ChatMessage` and
  `SessionResponse` are modelled by explicit encoders/decoders following
  serde's externally-tagged representation and declaration field order.
  The string rendering/parsing layer of `serde_json` itself is treated as an
  external, faithful codec.
* The leader's `HashMap<Uuid, Session>` is modelled as an association list
  with insert-or-replace semantics (`alInsert`); the on-disk session
  directory is a second association list from file names to `Json` contents.
* Network nondeterminism seen by the follower's Client Proxy is modelled by
  the `Net` type: connect failure, a response that never arrives (`silent`),
  a read error, or a reply delivered after a given number of seconds.
  An unbounded `read_to_string` on a never-arriving response is modelled as
  the `diverges` outcome; the 5-second `tokio::time::timeout` wrapper turns
  late or absent replies into a timeout error instead.
-/

namespace GraphOS

/-- A chat message, `enum ChatMessage { User(String), Assistant(String) }`
(session.rs lines 28-32; chat.rs has an identical mirror enum whose
`User`/`Assistant` variants convert one-to-one). -/
inductive ChatMessage where
  | user (text : String)
  | assistant (text : String)
deriving DecidableEq, Repr

/-- `struct Session` (session.rs lines 20-26): id, created_at, last_active,
messages, in declaration order. `Uuid` and `DateTime<Utc>` are both
modelled as `Nat`. -/
structure Session where
  id : Nat
  created_at : Nat
  last_active : Nat
  messages : List ChatMessage
deriving DecidableEq, Repr

/-- JSON value trees, standing for `serde_json::Value`. -/
inductive Json where
  | null
  | bool (b : Bool)
  | num (n : Nat)
  | str (s : String)
  | arr (xs : List Json)
  | obj (fields : List (String × Json))

/-- serde externally-tagged encoding of `ChatMessage`:
`{"User": text}` or `{"Assistant": text}`. -/
def chatMessageToJson : ChatMessage → Json
  | .user t => .obj [("User", .str t)]
  | .assistant t => .obj [("Assistant", .str t)]

/-- Decoder for the externally-tagged `ChatMessage` representation. -/
def chatMessageFromJson : Json → Option ChatMessage
  | .obj [("User", .str t)] => some (.user t)
  | .obj [("Assistant", .str t)] => some (.assistant t)
  | _ => none

/-- Decode a JSON array of chat messages; fails if any element fails. -/
def messagesFromJson : List Json → Option (List ChatMessage)
  | [] => some []
  | j :: rest =>
    match chatMessageFromJson j, messagesFromJson rest with
    | some m, some ms => some (m :: ms)
    | _, _ => none

/-- serde encoding of `Session` as a JSON object, fields in declaration
order (`id`, `created_at`, `last_active`, `messages`); this is the tree
behind `serde_json::to_string_pretty(session)` (session.rs line 137). -/
def sessionToJson (s : Session) : Json :=
  .obj [("id", .num s.id),
        ("created_at", .num s.created_at),
        ("last_active", .num s.last_active),
        ("messages", .arr (s.messages.map chatMessageToJson))]

/-- Decoder for the `Session` object shape, the tree behind
`serde_json::from_str::<Session>` (session.rs line 121). -/
def sessionFromJson : Json → Option Session
  | .obj [("id", .num i),
          ("created_at", .num c),
          ("last_active", .num l),
          ("messages", .arr ms)] =>
    (messagesFromJson ms).map (fun msgs => ⟨i, c, l, msgs⟩)
  | _ => none

/-- Decode a JSON array of sessions; fails if any element fails. -/
def sessionsFromJson : List Json → Option (List Session)
  | [] => some []
  | j :: rest =>
    match sessionFromJson j, sessionsFromJson rest with
    | some s, some ss => some (s :: ss)
    | _, _ => none

/-- `enum SessionResponse` (session.rs lines 42-47). -/
inductive SessionResponse where
  | session (s : Session)
  | sessions (ss : List Session)
  | error (msg : String)

/-- serde externally-tagged encoding of `SessionResponse`. -/
def responseToJson : SessionResponse → Json
  | .session s => .obj [("Session", sessionToJson s)]
  | .sessions ss => .obj [("Sessions", .arr (ss.map sessionToJson))]
  | .error m => .obj [("Error", .str m)]

/-- Decoder for the externally-tagged `SessionResponse` representation. -/
def responseFromJson : Json → Option SessionResponse
  | .obj [("Session", j)] => (sessionFromJson j).map .session
  | .obj [("Sessions", .arr js)] => (sessionsFromJson js).map .sessions
  | .obj [("Error", .str m)] => some (.error m)
  | _ => none

/-- `enum SessionCommand` (session.rs lines 34-40). -/
inductive SessionCommand where
  | getOrCreateSession
  | getSession (id : Nat)
  | updateSession (s : Session)
  | listSessions

/-- Association-list lookup, the observable behaviour of `HashMap::get`
(and of file lookup in the session directory). -/
def alLookup {κ α : Type} [DecidableEq κ] (k : κ) : List (κ × α) → Option α
  | [] => none
  | (k', v) :: rest => if k' = k then some v else alLookup k rest

/-- Association-list insert-or-replace, the observable behaviour of
`HashMap::insert` (and of a file overwrite in the session directory):
replaces the binding in place when the key is present, otherwise appends
a new binding. -/
def alInsert {κ α : Type} [DecidableEq κ] (k : κ) (v : α) :
    List (κ × α) → List (κ × α)
  | [] => [(k, v)]
  | (k', v') :: rest =>
    if k' = k then (k, v) :: rest else (k', v') :: alInsert k v rest

/-- The leader's in-memory table, `HashMap<Uuid, Session>`. -/
abbrev Table := List (Nat × Session)

/-- Snapshot file name for a session id, `format!("{}.json", session.id)`
(session.rs lines 136, 431, 449). -/
def session_file_name (id : Nat) : String := toString id ++ ".json"

/-- Leader-resident state: the session table plus the session directory
contents on disk. -/
structure Store where
  sessions : Table
  disk : List (String × Json)

/-- The empty leader state (fresh table, empty session directory). -/
def store0 : Store := ⟨[], []⟩

/-- `SessionManager::save_session` (session.rs lines 135-143): writes the
pretty-printed JSON snapshot of `session` to `"{id}.json"`. -/
def save_session (s : Session) (disk : List (String × Json)) : List (String × Json) :=
  alInsert (session_file_name s.id) (sessionToJson s) disk

/-- Leader branch of `SessionManager::get_or_create_session` (session.rs
lines 196-213): builds a `Session` with a fresh id and both timestamps
stamped to now, inserts it into the table keyed by that id, saves the
snapshot, and returns the id. `Uuid::new_v4()` is the `freshId` oracle
parameter. -/
def leader_get_or_create_session (freshId now : Nat) (st : Store) : Store × Nat :=
  let s : Session := ⟨freshId, now, now, []⟩
  (⟨alInsert freshId s st.sessions, save_session s st.disk⟩, freshId)

/-- Leader branch of `SessionManager::get_session` (session.rs lines
309-313): pure table lookup. -/
def leader_get_session (id : Nat) (st : Store) : Option Session :=
  alLookup id st.sessions

/-- Leader branch of `SessionManager::update_session` (session.rs lines
337-346): wholesale `HashMap::insert` keyed by `session.id` — no existence
check, no merge — then saves the snapshot. -/
def leader_update_session (s : Session) (st : Store) : Store :=
  ⟨alInsert s.id s st.sessions, save_session s st.disk⟩

/-- Leader branch of `SessionManager::list_sessions` (session.rs lines
280-285): clones all current table values. -/
def leader_list_sessions (st : Store) : List Session :=
  st.sessions.map (fun p => p.2)

/-- What the listener's per-connection read phase produced: a read timeout,
a read error, bytes that fail to decode as a command, or a decoded
command (handle_client, session.rs lines 371-414). -/
inductive HandlerIn where
  | readTimeout
  | readFail (msg : String)
  | badJson (msg : String)
  | cmd (c : SessionCommand)

/-- `handle_client` (session.rs lines 371-466): one command in, one
response out. Read timeout / read error / malformed JSON each yield an
`Error` response; `GetOrCreateSession` and `UpdateSession` mutate the
table (keyed by the session's own id) and write the snapshot file;
`GetSession` is a lookup with an `Error` on a miss; `ListSessions`
returns all values. -/
def handle_client (inp : HandlerIn) (freshId now : Nat) (st : Store) :
    Store × SessionResponse :=
  match inp with
  | .readTimeout => (st, .error "Timeout reading command")
  | .readFail e => (st, .error ("Error reading command: " ++ e))
  | .badJson e => (st, .error ("Invalid command format: " ++ e))
  | .cmd .getOrCreateSession =>
    let s : Session := ⟨freshId, now, now, []⟩
    (⟨alInsert freshId s st.sessions,
      alInsert (session_file_name freshId) (sessionToJson s) st.disk⟩,
     .session s)
  | .cmd (.getSession i) =>
    match alLookup i st.sessions with
    | some s => (st, .session s)
    | none => (st, .error ("Session not found: " ++ toString i))
  | .cmd (.updateSession s) =>
    (⟨alInsert s.id s st.sessions,
      alInsert (session_file_name s.id) (sessionToJson s) st.disk⟩,
     .session s)
  | .cmd .listSessions => (st, .sessions (st.sessions.map (fun p => p.2)))

/-- `ChatApp::save_session` (chat.rs lines 223-242): rebuilds the session
from the chat app's local message list, stamping `created_at` (the code
comment calls it a placeholder) and `last_active` both to now, then hands
it to `update_session`; leader path shown. -/
def chat_save_session (sessionId now : Nat) (msgs : List ChatMessage) (st : Store) : Store :=
  leader_update_session ⟨sessionId, now, now, msgs⟩ st

/-- Network behaviour observed by one Client Proxy call: the connect fails,
the response never arrives, the read fails, or a reply (possibly not
valid JSON, hence `Option Json`) completes after `secs` seconds. -/
inductive Net where
  | connectFail
  | silent
  | readFail (msg : String)
  | reply (secs : Nat) (bytes : Option Json)

/-- Typed failures surfaced by the Client Proxy (the `anyhow` bail sites in
the client branches of session.rs). -/
inductive ProxyError where
  | connectionFailure
  | timeout
  | readFailure
  | protocol
  | sessionError (msg : String)
  | unexpected
deriving DecidableEq, Repr

/-- Outcome of one follower-side call: a value, a typed failure, or no
outcome at all (an unbounded read that never returns). -/
inductive FollowerOut (α : Type) where
  | diverges
  | ok (a : α)
  | err (e : ProxyError)

/-- Client branch of `SessionManager::get_or_create_session` (session.rs
lines 214-277). On connect failure it builds a local session and inserts
it into this process's own map, returning the id as a success; otherwise
the read is wrapped in `timeout(Duration::from_secs(5), ..)`, so a silent
or late reply yields a timeout failure; a decoded `Session` response
yields its id, an `Error` response or unexpected shape bails. -/
def follower_get_or_create_session (net : Net) (freshId now : Nat)
    (loc : Table) : FollowerOut Nat × Table :=
  match net with
  | .connectFail =>
    let s : Session := ⟨freshId, now, now, []⟩
    (.ok freshId, alInsert freshId s loc)
  | .silent => (.err .timeout, loc)
  | .readFail _ => (.err .readFailure, loc)
  | .reply secs bytes =>
    if 5 < secs then (.err .timeout, loc)
    else
      match bytes with
      | none => (.err .protocol, loc)
      | some j =>
        match responseFromJson j with
        | some (.session s) => (.ok s.id, loc)
        | some (.error e) => (.err (.sessionError e), loc)
        | some (.sessions _) => (.err .unexpected, loc)
        | none => (.err .protocol, loc)

/-- Client branch of `SessionManager::list_sessions` (session.rs lines
286-307): connect failure propagates; the response read is a bare
`read_to_string` with no timeout, so a reply that never completes never
returns, and a reply after any delay is still processed normally. -/
def follower_list_sessions (net : Net) (loc : Table) :
    FollowerOut (List Session) × Table :=
  match net with
  | .connectFail => (.err .connectionFailure, loc)
  | .silent => (.diverges, loc)
  | .readFail _ => (.err .readFailure, loc)
  | .reply _ bytes =>
    match bytes with
    | none => (.err .protocol, loc)
    | some j =>
      match responseFromJson j with
      | some (.sessions ss) => (.ok ss, loc)
      | some (.error e) => (.err (.sessionError e), loc)
      | some (.session _) => (.err .unexpected, loc)
      | none => (.err .protocol, loc)

/-- Client branch of `SessionManager::get_session` (session.rs lines
314-335): unbounded `read_to_string`; a decoded `Session` response maps to
`some`, and any `Error` response — whatever its message — maps to `Ok(None)`
rather than a failure. -/
def follower_get_session (net : Net) (id : Nat) (loc : Table) :
    FollowerOut (Option Session) × Table :=
  match net with
  | .connectFail => (.err .connectionFailure, loc)
  | .silent => (.diverges, loc)
  | .readFail _ => (.err .readFailure, loc)
  | .reply _ bytes =>
    match bytes with
    | none => (.err .protocol, loc)
    | some j =>
      match responseFromJson j with
      | some (.session s) => (.ok (some s), loc)
      | some (.error _) => (.ok none, loc)
      | some (.sessions _) => (.err .unexpected, loc)
      | none => (.err .protocol, loc)

/-- Client branch of `SessionManager::update_session` (session.rs lines
347-368): unbounded `read_to_string`; a `Session` response maps to unit
success, an `Error` response bails with the message. -/
def follower_update_session (net : Net) (s : Session) (loc : Table) :
    FollowerOut Unit × Table :=
  match net with
  | .connectFail => (.err .connectionFailure, loc)
  | .silent => (.diverges, loc)
  | .readFail _ => (.err .readFailure, loc)
  | .reply _ bytes =>
    match bytes with
    | none => (.err .protocol, loc)
    | some j =>
      match responseFromJson j with
      | some (.session _) => (.ok (), loc)
      | some (.error e) => (.err (.sessionError e), loc)
      | some (.sessions _) => (.err .unexpected, loc)
      | none => (.err .protocol, loc)

/-- Result of reading one file in the session directory: an I/O error (the
`?` on `File::open`/`read_to_string`), or text content, where `none`
stands for bytes that are not a JSON document at all. -/
inductive FileRead where
  | ioFail
  | content (j : Option Json)

/-- Whether this read failed at the I/O level. -/
def FileRead.isIoFail : FileRead → Bool
  | .ioFail => true
  | .content _ => false

/-- One directory entry seen by `load_sessions`: its file extension and
what reading it produces. -/
structure DirEntry where
  ext : String
  read : FileRead

/-- The `Session` a directory entry contributes, if any: extension must be
`"json"`, the read must succeed, and the contents must parse. -/
def entrySession (e : DirEntry) : Option Session :=
  if e.ext = "json" then
    match e.read with
    | .ioFail => none
    | .content c => c.bind sessionFromJson
  else none

/-- `SessionManager::load_sessions` (session.rs lines 110-133): scans the
directory; for each `.json` file, an I/O failure aborts the whole load
(the `?` operator), a parse failure is logged and skipped, and a parsed
session is inserted keyed by its own id. -/
def load_sessions : List DirEntry → Table → Option Table
  | [], t => some t
  | e :: rest, t =>
    if e.ext = "json" then
      match e.read with
      | .ioFail => none
      | .content c =>
        match c.bind sessionFromJson with
        | some s => load_sessions rest (alInsert s.id s t)
        | none => load_sessions rest t
    else load_sessions rest t

/-- Fold a sequence of `Update` calls over the leader state. -/
def apply_updates (us : List Session) (st : Store) : Store :=
  us.foldl (fun acc s => leader_update_session s acc) st

/-- Table well-formedness: every entry is keyed by its session's own id. -/
def TableWF (t : Table) : Prop := ∀ p ∈ t, (p.2 : Session).id = p.1

instance (t : Table) : Decidable (TableWF t) :=
  show Decidable (∀ p ∈ t, (p.2 : Session).id = p.1) from inferInstance

/-! Helper lemmas about the association-list map. -/

theorem alLookup_alInsert_self {κ α : Type} [DecidableEq κ] (k : κ) (v : α)
    (t : List (κ × α)) : alLookup k (alInsert k v t) = some v := by
  induction t with
  | nil => simp [alInsert, alLookup]
  | cons p rest ih =>
    obtain ⟨k', v'⟩ := p
    by_cases h : k' = k
    · simp [alInsert, h, alLookup]
    · simp [alInsert, h, alLookup, ih]

theorem alLookup_alInsert_ne {κ α : Type} [DecidableEq κ] (k k' : κ) (v : α)
    (t : List (κ × α)) (h : k ≠ k') :
    alLookup k' (alInsert k v t) = alLookup k' t := by
  induction t with
  | nil => simp [alInsert, alLookup, h]
  | cons p rest ih =>
    obtain ⟨k₀, v₀⟩ := p
    by_cases h₀ : k₀ = k
    · subst h₀; simp [alInsert, alLookup, h, ih]
    · simp [alInsert, h₀, alLookup, ih]

theorem mem_alInsert {κ α : Type} [DecidableEq κ] (p : κ × α) (k : κ) (v : α)
    (t : List (κ × α)) (hp : p ∈ alInsert k v t) : p = (k, v) ∨ p ∈ t := by
  induction t with
  | nil =>
    simp [alInsert] at hp
    exact Or.inl hp
  | cons q rest ih =>
    obtain ⟨k₀, v₀⟩ := q
    by_cases h₀ : k₀ = k
    · simp [alInsert, h₀] at hp
      rcases hp with h | h
      · exact Or.inl (by simp [h])
      · exact Or.inr (List.mem_cons_of_mem _ h)
    · simp [alInsert, h₀] at hp
      rcases hp with h | h
      · exact Or.inr (by simp [h])
      · rcases ih h with h' | h'
        · exact Or.inl h'
        · exact Or.inr (List.mem_cons_of_mem _ h')

theorem alLookup_mem {κ α : Type} [DecidableEq κ] (k : κ) (v : α)
    (t : List (κ × α)) (h : alLookup k t = some v) : (k, v) ∈ t := by
  induction t with
  | nil => simp [alLookup] at h
  | cons p rest ih =>
    obtain ⟨k₀, v₀⟩ := p
    by_cases h₀ : k₀ = k
    · subst h₀
      simp [alLookup] at h
      simp [h]
    · simp [alLookup, h₀] at h
      exact List.mem_cons_of_mem _ (ih h)

theorem alLookup_none_keys {κ α : Type} [DecidableEq κ] (k : κ)
    (t : List (κ × α)) (h : alLookup k t = none) : ∀ p ∈ t, p.1 ≠ k := by
  induction t with
  | nil => intro p hp; simp at hp
  | cons q rest ih =>
    obtain ⟨k₀, v₀⟩ := q
    by_cases h₀ : k₀ = k
    · simp [alLookup, h₀] at h
    · intro p hp
      rcases List.mem_cons.mp hp with h' | h'
      · simp [h', h₀]
      · exact ih (by simpa [alLookup, h₀] using h) p h'

theorem tableWF_alInsert (t : Table) (s : Session) (h : TableWF t) :
    TableWF (alInsert s.id s t) := by
  intro p hp
  rcases mem_alInsert p s.id s t hp with h' | h'
  · subst h'; rfl
  · exact h p h'

/-! Helper lemmas about the JSON codec. -/

theorem messagesFromJson_map (ms : List ChatMessage) :
    messagesFromJson (ms.map chatMessageToJson) = some ms := by
  induction ms with
  | nil => rfl
  | cons m rest ih =>
    cases m <;>
      simp [chatMessageToJson, chatMessageFromJson, messagesFromJson, ih]

theorem sessionFromJson_toJson (s : Session) :
    sessionFromJson (sessionToJson s) = some s := by
  obtain ⟨i, c, l, ms⟩ := s
  simp [sessionToJson, sessionFromJson, messagesFromJson_map]

theorem sessionsFromJson_map (ss : List Session) :
    sessionsFromJson (ss.map sessionToJson) = some ss := by
  induction ss with
  | nil => rfl
  | cons s rest ih => simp [sessionsFromJson, sessionFromJson_toJson, ih]

theorem responseFromJson_toJson (r : SessionResponse) :
    responseFromJson (responseToJson r) = some r := by
  cases r with
  | session s =>
    simp [responseToJson, responseFromJson, sessionFromJson_toJson]
  | sessions ss =>
    simp [responseToJson, responseFromJson, sessionsFromJson_map]
  | error m => rfl

/-! Helper lemmas about `load_sessions`. -/

theorem load_sessions_append (xs ys : List DirEntry) (t : Table) :
    load_sessions (xs ++ ys) t =
      match load_sessions xs t with
      | some t' => load_sessions ys t'
      | none => none := by
  induction xs generalizing t with
  | nil => simp [load_sessions]
  | cons e rest ih =>
    by_cases he : e.ext = "json"
    · cases hr : e.read with
      | ioFail => simp [load_sessions, he, hr]
      | content c =>
        cases hc : c.bind sessionFromJson with
        | none => simp [load_sessions, he, hr, hc, ih]
        | some s => simp [load_sessions, he, hr, hc, ih]
    · simp [load_sessions, he, ih]

theorem load_sessions_total (xs : List DirEntry) (t : Table)
    (h : ∀ e ∈ xs, e.read.isIoFail = false) :
    ∃ t', load_sessions xs t = some t' := by
  induction xs generalizing t with
  | nil => exact ⟨t, rfl⟩
  | cons e rest ih =>
    have he := h e (List.mem_cons_self e rest)
    have hrest : ∀ e' ∈ rest, e'.read.isIoFail = false :=
      fun e' h' => h e' (List.mem_cons_of_mem _ h')
    by_cases hx : e.ext = "json"
    · cases hr : e.read with
      | ioFail => rw [hr] at he; simp [FileRead.isIoFail] at he
      | content c =>
        cases hc : c.bind sessionFromJson with
        | none =>
          obtain ⟨t', ht'⟩ := ih (t := t) hrest
          exact ⟨t', by simp [load_sessions, hx, hr, hc, ht']⟩
        | some s =>
          obtain ⟨t', ht'⟩ := ih (t := alInsert s.id s t) hrest
          exact ⟨t', by simp [load_sessions, hx, hr, hc, ht']⟩
    · obtain ⟨t', ht'⟩ := ih (t := t) hrest
      exact ⟨t', by simp [load_sessions, hx, ht']⟩

theorem load_sessions_untouched_key (xs : List DirEntry) (t t' : Table) (k : Nat)
    (hk : ∀ e ∈ xs, ∀ s, entrySession e = some s → s.id ≠ k)
    (hl : load_sessions xs t = some t') :
    alLookup k t' = alLookup k t := by
  induction xs generalizing t with
  | nil =>
    simp [load_sessions] at hl
    subst hl; rfl
  | cons e rest ih =>
    have hke := hk e (List.mem_cons_self e rest)
    have hkrest : ∀ e' ∈ rest, ∀ s, entrySession e' = some s → s.id ≠ k :=
      fun e' h' => hk e' (List.mem_cons_of_mem _ h')
    by_cases hx : e.ext = "json"
    · cases hr : e.read with
      | ioFail => simp [load_sessions, hx, hr] at hl
      | content c =>
        cases hc : c.bind sessionFromJson with
        | none =>
          rw [show load_sessions (e :: rest) t = load_sessions rest t by
            simp [load_sessions, hx, hr, hc]] at hl
          exact ih _ hkrest hl
        | some s =>
          have hs : entrySession e = some s := by
            simp [entrySession, hx, hr, hc]
          have hne : s.id ≠ k := hke s hs
          rw [show load_sessions (e :: rest) t
                = load_sessions rest (alInsert s.id s t) by
            simp [load_sessions, hx, hr, hc]] at hl
          rw [ih _ hkrest hl]
          exact alLookup_alInsert_ne s.id k s t hne
    · rw [show load_sessions (e :: rest) t = load_sessions rest t by
        simp [load_sessions, hx]] at hl
      exact ih _ hkrest hl

theorem load_sessions_wf (xs : List DirEntry) (t t' : Table)
    (hwf : TableWF t) (hl : load_sessions xs t = some t') : TableWF t' := by
  induction xs generalizing t with
  | nil =>
    simp [load_sessions] at hl
    subst hl; exact hwf
  | cons e rest ih =>
    by_cases hx : e.ext = "json"
    · cases hr : e.read with
      | ioFail => simp [load_sessions, hx, hr] at hl
      | content c =>
        cases hc : c.bind sessionFromJson with
        | none =>
          rw [show load_sessions (e :: rest) t = load_sessions rest t by
            simp [load_sessions, hx, hr, hc]] at hl
          exact ih _ hwf hl
        | some s =>
          rw [show load_sessions (e :: rest) t
                = load_sessions rest (alInsert s.id s t) by
            simp [load_sessions, hx, hr, hc]] at hl
          exact ih _ (tableWF_alInsert t s hwf) hl
    · rw [show load_sessions (e :: rest) t = load_sessions rest t by
        simp [load_sessions, hx]] at hl
      exact ih _ hwf hl

/-! Helper lemmas for update sequencing and table well-formedness. -/

theorem apply_updates_last (us : List Session) (st : Store) (u : Session)
    (i : Nat) (hall : ∀ v ∈ us, v.id = i) (hlast : us.getLast? = some u) :
    leader_get_session i (apply_updates us st) = some u := by
  induction us generalizing st with
  | nil => simp at hlast
  | cons v rest ih =>
    cases rest with
    | nil =>
      have hv : v.id = i := hall v (List.mem_cons_self v [])
      have hu : v = u := by simpa using hlast
      subst hu
      subst hv
      simp [apply_updates, leader_get_session, leader_update_session,
        alLookup_alInsert_self]
    | cons w ws =>
      have hall' : ∀ v' ∈ w :: ws, v'.id = i :=
        fun v' h' => hall v' (List.mem_cons_of_mem _ h')
      have hlast' : (w :: ws).getLast? = some u := by
        rw [List.getLast?_cons_cons] at hlast
        exact hlast
      have hstep : apply_updates (v :: w :: ws) st
          = apply_updates (w :: ws) (leader_update_session v st) := rfl
      rw [hstep]
      exact ih _ hall' hlast'

theorem tableWF_map_id (t : Table) :
    TableWF t → t.map (fun p => (p.2 : Session).id) = t.map Prod.fst := by
  induction t with
  | nil => intro _; rfl
  | cons p rest ih =>
    intro h
    have hp := h p (List.mem_cons_self p rest)
    have ht : TableWF rest := fun q hq => h q (List.mem_cons_of_mem _ hq)
    simp [hp, ih ht]

/-- Claim C1 (code bug): a session is created at time 0, so its
`created_at` is 0; the chat collaborator's save path then runs at time 1
and, because `ChatApp::save_session` rebuilds the session with
`created_at: chrono::Utc::now()` (its own comment says the original
should be preserved), the `created_at` read back by `Get` is 1, not the
original 0. This evaluates the code at that failing input. -/
theorem chat_save_regenerates_created_at :
    (leader_get_session 7 (chat_save_session 7 1 []
        (leader_get_or_create_session 7 0 store0).1)).map Session.created_at
      = some 1
    ∧ (leader_get_session 7 (chat_save_session 7 1 []
        (leader_get_or_create_session 7 0 store0).1)).map Session.created_at
      ≠ some 0 :=
  ⟨rfl, by decide⟩

/-- Claim C2 counterexample: a timeout waiting for the `GetOrCreateSession`
response does NOT fall back to a local session — the client branch bails
with a typed timeout failure (session.rs lines 262-265), so the claim
that every failure mode reaching the proxy degrades to a local session is
false for the timeout mode. -/
theorem get_or_create_timeout_surfaces_failure :
    (follower_get_or_create_session Net.silent 7 0 []).1
      = FollowerOut.err ProxyError.timeout := rfl

/-- Claim C2 amended: on a follower, `GetOrCreateSession` falls back to a
purely local, unpersisted session (returned as a success) only on
connection failure; a timeout waiting for the response — or a read
failure — surfaces as a typed failure instead. -/
theorem get_or_create_fallback_on_connect_failure_only :
    (∀ (f n : Nat) (loc : Table),
      follower_get_or_create_session Net.connectFail f n loc
        = (FollowerOut.ok f, alInsert f ⟨f, n, n, []⟩ loc))
    ∧ (∀ (f n : Nat) (loc : Table),
      follower_get_or_create_session Net.silent f n loc
        = (FollowerOut.err ProxyError.timeout, loc))
    ∧ (∀ (f n secs : Nat) (bytes : Option Json) (loc : Table), 5 < secs →
      follower_get_or_create_session (Net.reply secs bytes) f n loc
        = (FollowerOut.err ProxyError.timeout, loc))
    ∧ (∀ (f n : Nat) (m : String) (loc : Table),
      follower_get_or_create_session (Net.readFail m) f n loc
        = (FollowerOut.err ProxyError.readFailure, loc)) := by
  refine ⟨fun f n loc => rfl, fun f n loc => rfl, ?_, fun f n m loc => rfl⟩
  intro f n secs bytes loc h
  simp [follower_get_or_create_session, h]

/-- Witness for the amended C2 theorem at a concrete late reply. -/
theorem get_or_create_fallback_witness :
    follower_get_or_create_session (Net.reply 9 none) 3 0 []
      = (FollowerOut.err ProxyError.timeout, []) :=
  get_or_create_fallback_on_connect_failure_only.2.2.1 3 0 9 none [] (by decide)

/-- Claim C3 counterexample: the follower's `ListSessions` read is a bare
`read_to_string` with no timeout (session.rs lines 296-297) — a response
that never completes hangs forever, and a response arriving after 100
seconds is still accepted as a success, never a typed `Timeout` failure.
So the claim that all four operations bound their wait by a 5-second
timeout is false. -/
theorem list_read_is_unbounded :
    (follower_list_sessions Net.silent []).1 = FollowerOut.diverges
    ∧ follower_list_sessions
        (Net.reply 100 (some (responseToJson (SessionResponse.sessions [])))) []
      = (FollowerOut.ok [], []) :=
  ⟨rfl, rfl⟩

/-- Claim C3 amended: only `GetOrCreate` bounds its response read with the
5-second timeout (it can never hang, and a late reply yields a typed
timeout failure); the `Get`, `Update` and `List` proxies read unbounded —
a never-completing response hangs them, and an arbitrarily late reply is
still processed as a normal response. -/
theorem proxy_timeout_asymmetry :
    (∀ (net : Net) (f n : Nat) (loc : Table),
      (follower_get_or_create_session net f n loc).1 ≠ FollowerOut.diverges)
    ∧ (∀ (f n secs : Nat) (bytes : Option Json) (loc : Table), 5 < secs →
      (follower_get_or_create_session (Net.reply secs bytes) f n loc).1
        = FollowerOut.err ProxyError.timeout)
    ∧ (∀ loc : Table,
      (follower_list_sessions Net.silent loc).1 = FollowerOut.diverges)
    ∧ (∀ (i : Nat) (loc : Table),
      (follower_get_session Net.silent i loc).1 = FollowerOut.diverges)
    ∧ (∀ (s : Session) (loc : Table),
      (follower_update_session Net.silent s loc).1 = FollowerOut.diverges)
    ∧ (∀ (secs : Nat) (ss : List Session) (loc : Table),
      (follower_list_sessions
          (Net.reply secs (some (responseToJson (SessionResponse.sessions ss))))
          loc).1
        = FollowerOut.ok ss) := by
  refine ⟨?_, ?_, fun loc => rfl, fun i loc => rfl, fun s loc => rfl, ?_⟩
  · intro net f n loc
    cases net with
    | connectFail => exact fun h => FollowerOut.noConfusion h
    | silent => exact fun h => FollowerOut.noConfusion h
    | readFail m => exact fun h => FollowerOut.noConfusion h
    | reply secs bytes =>
      by_cases h5 : 5 < secs
      · simp [follower_get_or_create_session, h5]
      · cases bytes with
        | none => simp [follower_get_or_create_session, h5]
        | some j =>
          cases hj : responseFromJson j with
          | none => simp [follower_get_or_create_session, h5, hj]
          | some r =>
            cases r <;> simp [follower_get_or_create_session, h5, hj]
  · intro f n secs bytes loc h
    simp [follower_get_or_create_session, h]
  · intro secs ss loc
    simp [follower_list_sessions, responseFromJson_toJson]

/-- Witness for the amended C3 theorem at a concrete late reply. -/
theorem proxy_timeout_asymmetry_witness :
    (follower_get_or_create_session (Net.reply 7 (some Json.null)) 2 0 []).1
      = FollowerOut.err ProxyError.timeout :=
  proxy_timeout_asymmetry.2.1 2 0 7 (some Json.null) [] (by decide)

/-- Claim C4: `Update(session)` replaces the stored value for `session.id`
wholesale — an immediately following `Get` returns exactly the updated
session; an `Update` on an id absent from the table inserts it; and for
any sequence of `Update` calls with the same id, a following `Get`
returns exactly the fields of the most recent `Update` (its full message
sequence, never a merge). -/
theorem update_session_wholesale_last_write_wins :
    (∀ (st : Store) (s : Session),
      leader_get_session s.id (leader_update_session s st) = some s)
    ∧ (∀ (st : Store) (s : Session), leader_get_session s.id st = none →
      leader_get_session s.id (leader_update_session s st) = some s)
    ∧ (∀ (us : List Session) (st : Store) (u : Session) (i : Nat),
      (∀ v ∈ us, v.id = i) → us.getLast? = some u →
      leader_get_session i (apply_updates us st) = some u) := by
  refine ⟨?_, ?_, ?_⟩
  · intro st s
    simp [leader_get_session, leader_update_session, alLookup_alInsert_self]
  · intro st s _
    simp [leader_get_session, leader_update_session, alLookup_alInsert_self]
  · intro us st u i hall hlast
    exact apply_updates_last us st u i hall hlast

/-- Witness for C4: two updates with id 4; `Get 4` returns exactly the
second update's fields, including its whole message sequence. -/
theorem update_session_wholesale_witness :
    leader_get_session 4 (apply_updates
        [⟨4, 0, 0, [ChatMessage.user "a"]⟩, ⟨4, 0, 1, [ChatMessage.user "b"]⟩]
        store0)
      = some ⟨4, 0, 1, [ChatMessage.user "b"]⟩ :=
  update_session_wholesale_last_write_wins.2.2
    [⟨4, 0, 0, [ChatMessage.user "a"]⟩, ⟨4, 0, 1, [ChatMessage.user "b"]⟩]
    store0 ⟨4, 0, 1, [ChatMessage.user "b"]⟩ 4 (by decide) rfl

/-- Claim C5: on the leader, `GetOrCreate` with a fresh id (the
`Uuid::new_v4` oracle, assumed not already a table key) returns that id,
which is distinct from every id already in the table; it stamps both
`created_at` and `last_active` to now, inserts the new session into the
table, and writes its snapshot file to the session directory. -/
theorem leader_get_or_create_spec (freshId now : Nat) (st : Store)
    (h : leader_get_session freshId st = none) :
    (leader_get_or_create_session freshId now st).2 = freshId
    ∧ (∀ p ∈ st.sessions, (p : Nat × Session).1 ≠ freshId)
    ∧ leader_get_session freshId (leader_get_or_create_session freshId now st).1
        = some ⟨freshId, now, now, []⟩
    ∧ alLookup (session_file_name freshId)
        (leader_get_or_create_session freshId now st).1.disk
      = some (sessionToJson ⟨freshId, now, now, []⟩) := by
  refine ⟨rfl, ?_, ?_, ?_⟩
  · exact alLookup_none_keys freshId st.sessions h
  · simp [leader_get_session, leader_get_or_create_session, alLookup_alInsert_self]
  · simp [leader_get_or_create_session, save_session, alLookup_alInsert_self]

/-- Witness for C5 at a concrete fresh id over the empty store. -/
theorem leader_get_or_create_spec_witness :
    leader_get_session 5 (leader_get_or_create_session 5 9 store0).1
      = some ⟨5, 9, 9, []⟩ :=
  (leader_get_or_create_spec 5 9 store0 rfl).2.2.1

/-- Claim C7: serializing a `Session` to its snapshot JSON form and
parsing it back yields a session equal to the original in id,
`created_at`, `last_active`, and the full ordered message sequence. -/
theorem session_snapshot_roundtrip (s : Session) :
    ∃ s', sessionFromJson (sessionToJson s) = some s'
      ∧ s'.id = s.id ∧ s'.created_at = s.created_at
      ∧ s'.last_active = s.last_active ∧ s'.messages = s.messages :=
  ⟨s, sessionFromJson_toJson s, rfl, rfl, rfl, rfl⟩

/-- Claim C6 counterexample: the `GetOrCreateSession` connection-failure
fallback (session.rs lines 233-234) inserts the locally created session
into the follower process's own in-memory map, so it is false that no
operation performed in follower mode stores any `Session` in that
process's memory. -/
theorem fallback_stores_local_session :
    (follower_get_or_create_session Net.connectFail 7 0 []).2 ≠ [] := by
  decide

/-- Claim C6 amended: the follower's `Get`, `Update` and `List` proxies
never store any session locally, and neither does `GetOrCreateSession`
except on its connection-failure fallback, which inserts the local
fallback session into the follower's own map. -/
theorem follower_stateless_except_fallback :
    (∀ (net : Net) (loc : Table), (follower_list_sessions net loc).2 = loc)
    ∧ (∀ (net : Net) (i : Nat) (loc : Table),
      (follower_get_session net i loc).2 = loc)
    ∧ (∀ (net : Net) (s : Session) (loc : Table),
      (follower_update_session net s loc).2 = loc)
    ∧ (∀ (net : Net) (f n : Nat) (loc : Table), net ≠ Net.connectFail →
      (follower_get_or_create_session net f n loc).2 = loc) := by
  refine ⟨?_, ?_, ?_, ?_⟩
  · intro net loc
    cases net with
    | connectFail => rfl
    | silent => rfl
    | readFail m => rfl
    | reply secs bytes =>
      cases bytes with
      | none => rfl
      | some j =>
        cases hj : responseFromJson j with
        | none => simp [follower_list_sessions, hj]
        | some r => cases r <;> simp [follower_list_sessions, hj]
  · intro net i loc
    cases net with
    | connectFail => rfl
    | silent => rfl
    | readFail m => rfl
    | reply secs bytes =>
      cases bytes with
      | none => rfl
      | some j =>
        cases hj : responseFromJson j with
        | none => simp [follower_get_session, hj]
        | some r => cases r <;> simp [follower_get_session, hj]
  · intro net s loc
    cases net with
    | connectFail => rfl
    | silent => rfl
    | readFail m => rfl
    | reply secs bytes =>
      cases bytes with
      | none => rfl
      | some j =>
        cases hj : responseFromJson j with
        | none => simp [follower_update_session, hj]
        | some r => cases r <;> simp [follower_update_session, hj]
  · intro net f n loc hne
    cases net with
    | connectFail => exact absurd rfl hne
    | silent => rfl
    | readFail m => rfl
    | reply secs bytes =>
      by_cases h5 : 5 < secs
      · simp [follower_get_or_create_session, h5]
      · cases bytes with
        | none => simp [follower_get_or_create_session, h5]
        | some j =>
          cases hj : responseFromJson j with
          | none => simp [follower_get_or_create_session, h5, hj]
          | some r =>
            cases r <;> simp [follower_get_or_create_session, h5, hj]

/-- Witness for the amended C6 theorem: a timed-out `GetOrCreate` leaves
the follower's local map untouched. -/
theorem follower_stateless_witness :
    (follower_get_or_create_session Net.silent 3 0 []).2 = [] :=
  follower_stateless_except_fallback.2.2.2 Net.silent 3 0 []
    (fun h => Net.noConfusion h)

/-- Claim C8: when every directory entry is readable, leader startup load
never fails; a `.json` entry whose content fails to parse as a `Session`
is skipped without affecting the rest of the load (removing it changes
nothing); and every valid snapshot whose id is not overwritten by a later
valid entry ends up in the table. -/
theorem load_sessions_skips_malformed :
    (∀ (xs : List DirEntry) (t : Table),
      (∀ e ∈ xs, e.read.isIoFail = false) →
      ∃ t', load_sessions xs t = some t')
    ∧ (∀ (pre post : List DirEntry) (bad : DirEntry) (t : Table),
      bad.ext = "json" → bad.read.isIoFail = false → entrySession bad = none →
      load_sessions (pre ++ bad :: post) t = load_sessions (pre ++ post) t)
    ∧ (∀ (pre : List DirEntry) (e : DirEntry) (post : List DirEntry)
        (t t' : Table) (s : Session),
      entrySession e = some s →
      (∀ e' ∈ post, ∀ s', entrySession e' = some s' → s'.id ≠ s.id) →
      load_sessions (pre ++ e :: post) t = some t' →
      alLookup s.id t' = some s) := by
  refine ⟨load_sessions_total, ?_, ?_⟩
  · intro pre post bad t hext hio hmal
    have hstep : ∀ t₁ : Table,
        load_sessions (bad :: post) t₁ = load_sessions post t₁ := by
      intro t₁
      cases hr : bad.read with
      | ioFail => rw [hr] at hio; simp [FileRead.isIoFail] at hio
      | content c =>
        have hc : c.bind sessionFromJson = none := by
          simpa [entrySession, hext, hr] using hmal
        simp [load_sessions, hext, hr, hc]
    rw [load_sessions_append, load_sessions_append]
    cases hpre : load_sessions pre t with
    | none => rfl
    | some t₁ => simp [hstep t₁]
  · intro pre e post t t' s hs hpost hl
    rw [load_sessions_append] at hl
    cases hpre : load_sessions pre t with
    | none => rw [hpre] at hl; simp at hl
    | some t₁ =>
      rw [hpre] at hl
      have hext : e.ext = "json" := by
        by_contra hx
        simp [entrySession, hx] at hs
      cases hr : e.read with
      | ioFail => simp [entrySession, hext, hr] at hs
      | content c =>
        have hc : c.bind sessionFromJson = some s := by
          simpa [entrySession, hext, hr] using hs
        have hl' : load_sessions post (alInsert s.id s t₁) = some t' := by
          simpa [load_sessions, hext, hr, hc] using hl
        rw [load_sessions_untouched_key post (alInsert s.id s t₁) t' s.id
          hpost hl']
        exact alLookup_alInsert_self s.id s t₁

/-- Witness for C8: a directory holding one unparseable `.json` file and
one valid snapshot; the valid snapshot is loaded under its id. -/
theorem load_sessions_skips_malformed_witness :
    alLookup 5 [((5 : Nat), (⟨5, 1, 2, [ChatMessage.user "hi"]⟩ : Session))]
      = some ⟨5, 1, 2, [ChatMessage.user "hi"]⟩ :=
  load_sessions_skips_malformed.2.2
    [⟨"json", FileRead.content none⟩]
    ⟨"json", FileRead.content
      (some (sessionToJson ⟨5, 1, 2, [ChatMessage.user "hi"]⟩))⟩
    [] [] [(5, ⟨5, 1, 2, [ChatMessage.user "hi"]⟩)]
    ⟨5, 1, 2, [ChatMessage.user "hi"]⟩
    rfl (fun e' h' => absurd h' (List.not_mem_nil e')) rfl

/-- Claim C9: every insertion path keys the table entry by the stored
session's own id — the empty table is well formed, `alInsert s.id s`
preserves well-formedness, and so do the leader's `GetOrCreate` and
`Update`, every `handle_client` dispatch, and startup load; hence `Get i`
only returns sessions whose id is `i`, and the ids of `List`'s result are
exactly the table's keys. -/
theorem table_keyed_by_own_id :
    TableWF []
    ∧ (∀ (t : Table) (s : Session), TableWF t → TableWF (alInsert s.id s t))
    ∧ (∀ (st : Store) (f n : Nat), TableWF st.sessions →
      TableWF ((leader_get_or_create_session f n st).1).sessions)
    ∧ (∀ (st : Store) (s : Session), TableWF st.sessions →
      TableWF (leader_update_session s st).sessions)
    ∧ (∀ (inp : HandlerIn) (f n : Nat) (st : Store), TableWF st.sessions →
      TableWF ((handle_client inp f n st).1).sessions)
    ∧ (∀ (xs : List DirEntry) (t t' : Table), TableWF t →
      load_sessions xs t = some t' → TableWF t')
    ∧ (∀ (st : Store) (i : Nat) (s : Session), TableWF st.sessions →
      leader_get_session i st = some s → s.id = i)
    ∧ (∀ st : Store, TableWF st.sessions →
      (leader_list_sessions st).map Session.id = st.sessions.map Prod.fst) := by
  refine ⟨?_, ?_, ?_, ?_, ?_, ?_, ?_, ?_⟩
  · exact fun p hp => absurd hp (List.not_mem_nil p)
  · exact fun t s h => tableWF_alInsert t s h
  · exact fun st f n h => tableWF_alInsert st.sessions ⟨f, n, n, []⟩ h
  · exact fun st s h => tableWF_alInsert st.sessions s h
  · intro inp f n st h
    cases inp with
    | readTimeout => exact h
    | readFail m => exact h
    | badJson m => exact h
    | cmd c =>
      cases c with
      | getOrCreateSession => exact tableWF_alInsert st.sessions ⟨f, n, n, []⟩ h
      | getSession i =>
        cases hq : alLookup i st.sessions with
        | none => simpa [handle_client, hq] using h
        | some s => simpa [handle_client, hq] using h
      | updateSession s => exact tableWF_alInsert st.sessions s h
      | listSessions => exact h
  · exact fun xs t t' h hl => load_sessions_wf xs t t' h hl
  · intro st i s h hl
    exact h (i, s) (alLookup_mem i s st.sessions hl)
  · intro st h
    have := tableWF_map_id st.sessions h
    simpa [leader_list_sessions, List.map_map, Function.comp] using this

/-- Witness for C9: inserting a session under its own id into the empty
table yields a well-formed table. -/
theorem table_keyed_by_own_id_witness :
    TableWF (alInsert (5 : Nat) (⟨5, 0, 0, []⟩ : Session) []) :=
  table_keyed_by_own_id.2.1 [] ⟨5, 0, 0, []⟩ (by decide)

/-- Claim C10: on a follower, `GetSession` maps every `Error` response —
whatever its message — to a successful `none`, and the leader's handler
answers with an `Error` response for a lookup miss, a command-read
timeout, and a malformed command alike, so the caller cannot distinguish
a missing session from a protocol or timeout failure on the leader side
(two different error messages produce the identical result). -/
theorem follower_get_maps_error_to_none :
    (∀ (secs : Nat) (msg : String) (i : Nat) (loc : Table),
      follower_get_session
          (Net.reply secs (some (responseToJson (SessionResponse.error msg))))
          i loc
        = (FollowerOut.ok none, loc))
    ∧ (∀ (f n : Nat) (st : Store),
      (handle_client HandlerIn.readTimeout f n st).2
        = SessionResponse.error "Timeout reading command")
    ∧ (∀ (f n : Nat) (st : Store) (m : String),
      (handle_client (HandlerIn.badJson m) f n st).2
        = SessionResponse.error ("Invalid command format: " ++ m))
    ∧ (∀ (f n i : Nat) (st : Store), leader_get_session i st = none →
      (handle_client (HandlerIn.cmd (SessionCommand.getSession i)) f n st).2
        = SessionResponse.error ("Session not found: " ++ toString i))
    ∧ (∀ (secs₁ secs₂ i : Nat) (m₁ m₂ : String) (loc : Table),
      (follower_get_session
          (Net.reply secs₁ (some (responseToJson (SessionResponse.error m₁))))
          i loc).1
        = (follower_get_session
          (Net.reply secs₂ (some (responseToJson (SessionResponse.error m₂))))
          i loc).1) := by
  refine ⟨?_, fun f n st => rfl, fun f n st m => rfl, ?_, ?_⟩
  · intro secs msg i loc
    simp [follower_get_session, responseFromJson_toJson]
  · intro f n i st h
    have h' : alLookup i st.sessions = none := h
    simp [handle_client, h']
  · intro secs₁ secs₂ i m₁ m₂ loc
    simp [follower_get_session, responseFromJson_toJson]

/-- Witness for C10: a `GetSession` miss on the empty leader store yields
the not-found `Error` response. -/
theorem follower_get_maps_error_to_none_witness :
    (handle_client (HandlerIn.cmd (SessionCommand.getSession 9)) 0 0 store0).2
      = SessionResponse.error ("Session not found: " ++ toString 9) :=
  follower_get_maps_error_to_none.2.2.2.1 0 0 9 store0 rfl

end GraphOS
